import Mathlib

/-!
Shallow embedding of the files_manager repository's file-storage core:
the request-body validator, file persistence (`fileUtils.saveFile`), the
files controller endpoints (`postUpload`, `getShow`, `getIndex`,
`putPublish`/`putUnpublish`, content fetch) and the thumbnail worker, as
found in `src/utils/file` / `src/utils/basic` / `src/utils/user`, the
`FilesController` and the worker module.

Modelling conventions:
- MongoDB ObjectId values are hex strings; the driver (mongodb 3.x / bson
  1.x) accepts `null`, `undefined` or a number by GENERATING a fresh id
  (no throw), and accepts a string iff it has 12 characters or is a
  24-character hex string, throwing otherwise.  `basicUtils.isValidId`
  therefore returns `true` on `null`.
- JS falsiness of a possibly-absent string (`null`, `undefined`, `""`) is
  `truthy`.
- JS objects (response bodies, mongo documents) are association lists of
  key/value pairs; `objSet` models property assignment, `objSpread` the
  `...` spread, `objDelete` the `delete` operator.
- The filesystem is an association list from paths to byte lists plus a
  static fault model: `mkdirErr` (failure creating the storage root) and
  `writeErrs` (per-path write failures).  `readFile` of a path that was
  never written rejects.
- `Buffer.from(data, 'base64')` is `bufferFromBase64` (Node's forgiving
  decoder: non-alphabet characters are dropped, a trailing group of 2 or
  3 sextets yields 1 or 2 bytes, a lone trailing sextet is dropped).
-/

/-- JS truthiness of a plain string: the empty string is falsy. -/
def truthyStr (s : String) : Bool := s.length != 0

/-- JS truthiness of a possibly-absent string (`null`/`undefined` are falsy,
as is `""`). -/
def truthy : Option String → Bool
  | none => false
  | some s => truthyStr s

/-- Hexadecimal characters, as accepted by the ObjectId constructor. -/
def isHexChar (c : Char) : Bool :=
  c.isDigit || (('a' ≤ c) && (c ≤ 'f')) || (('A' ≤ c) && (c ≤ 'F'))

/-- A string is accepted by the ObjectId constructor iff it has exactly 12
characters or is a 24-character hex string. -/
def isValidIdStr (s : String) : Bool :=
  s.length == 12 || (s.length == 24 && s.data.all isHexChar)

/-- Model of `basicUtils.isValidId` on a possibly-null argument: `ObjectId`
called on `null`/`undefined` generates a fresh id instead of throwing, so
`isValidId(null)` is `true`; a present string must be syntactically valid. -/
def isValidId : Option String → Bool
  | none => true
  | some s => isValidIdStr s

/-- Error message thrown by the ObjectId constructor on a malformed string. -/
def objectIdErrMsg : String :=
  "Argument passed in must be a single String of 12 bytes or a string of 24 hex characters"

/-- Lookup in an association list (models reading a JS object property or a
keyed map). -/
def lookupAssoc {α : Type} (l : List (String × α)) (k : String) : Option α :=
  (l.find? (fun p => p.1 == k)).map (fun p => p.2)

/-- Overwrite-or-append update of an association list (models JS property
assignment: an existing key is overwritten in place, a new key is appended). -/
def setAssoc {α : Type} : List (String × α) → String → α → List (String × α)
  | [], k, v => [(k, v)]
  | p :: rest, k, v => if p.1 == k then (k, v) :: rest else p :: setAssoc rest k v

/-- The `parentId` stored in a file document: the root sentinel `0` or an
ObjectId of a parent folder. -/
inductive ParentRef
  | root
  | oid (s : String)
deriving DecidableEq

/-- Values stored in response/document objects. -/
inductive JVal
  | str (s : String)
  | bool (b : Bool)
  | oid (s : String)
  | pref (p : ParentRef)
  | undef
deriving DecidableEq

/-- A JS object: an association list of properties in insertion order. -/
abbrev Obj := List (String × JVal)

/-- Property read on a JS object. -/
def objGet (o : Obj) (k : String) : Option JVal := lookupAssoc o k

/-- Property-presence test on a JS object. -/
def objHas (o : Obj) (k : String) : Bool := o.any (fun p => p.1 == k)

/-- Property assignment on a JS object. -/
def objSet (o : Obj) (k : String) (v : JVal) : Obj := setAssoc o k v

/-- The object-literal spread `{ ...base, ...add }`: properties of `add` are
assigned onto `base` left to right. -/
def objSpread (base add : Obj) : Obj :=
  add.foldl (fun acc p => objSet acc p.1 p.2) base

/-- The JS `delete` operator on an object key. -/
def objDelete (o : Obj) (k : String) : Obj := o.filter (fun p => p.1 != k)

/-- Keys of a JS object, in property order. -/
def objKeys (o : Obj) : List String := o.map (fun p => p.1)

/-- A document of the `files` collection.  `_id` is the store-assigned id
(the mongodb driver mutates the inserted document, adding `_id` to it);
`localPath` is present only for non-folder entries. -/
structure FileDoc where
  _id : String
  userId : String
  name : String
  type : String
  isPublic : Bool
  parentId : ParentRef
  localPath : Option String
deriving DecidableEq

/-- The mongo representation of a file document, as the JS object handed to
`processFile` (all stored keys, including `_id` and, when present,
`localPath`). -/
def FileDoc.toObj (d : FileDoc) : Obj :=
  [("_id", JVal.oid d._id), ("userId", JVal.oid d.userId), ("name", JVal.str d.name),
   ("type", JVal.str d.type), ("isPublic", JVal.bool d.isPublic),
   ("parentId", JVal.pref d.parentId)]
  ++ (match d.localPath with
      | some p => [("localPath", JVal.str p)]
      | none => [])

/-- Model of `fileUtils.getFile` on an `{_id}` query: `findOne` returns the
first document whose `_id` matches. -/
def findFileById (store : List FileDoc) (i : String) : Option FileDoc :=
  store.find? (fun d => d._id == i)

/-- Model of `fileUtils.getFile` on an `{_id, userId}` query. -/
def findFileByIdUser (store : List FileDoc) (i u : String) : Option FileDoc :=
  store.find? (fun d => d._id == i && d.userId == u)

/-- Model of `userUtils.getUser` on `{_id: ObjectId(userId)}` where `userId`
is the value the identity resolver produced: on `null` the constructor
generates a fresh random id, which matches no stored user; on a (valid)
string the user is looked up in the users collection. -/
def getUserByOptId (users : List String) (userId : Option String) : Option String :=
  match userId with
  | none => none
  | some s => if s ∈ users then some s else none

/-- The local filesystem under the storage root: stored contents plus a
static fault model for `mkdir` of the storage root and per-path writes. -/
structure Fs where
  contents : List (String × List Nat)
  mkdirErr : Option String
  writeErrs : List (String × String)
deriving DecidableEq

/-- Model of `fsPromises.readFile`: the stored bytes, or a miss. -/
def Fs.read (fs : Fs) (path : String) : Option (List Nat) :=
  lookupAssoc fs.contents path

/-- Model of a promisified `writeFile`: fails with the configured per-path
error, otherwise stores the bytes. -/
def Fs.writeFile (fs : Fs) (path : String) (b : List Nat) : Except String Fs :=
  match lookupAssoc fs.writeErrs path with
  | some e => Except.error e
  | none => Except.ok { fs with contents := setAssoc fs.contents path b }

/-- Model of the `mkdir (recursive) then writeFile` sequence in
`fileUtils.saveFile`: either step may fail, aborting the write. -/
def Fs.mkdirWrite (fs : Fs) (path : String) (b : List Nat) : Except String Fs :=
  match fs.mkdirErr with
  | some e => Except.error e
  | none => fs.writeFile path b

/-- Sextet value of a base64 alphabet character (`A`-`Z`, `a`-`z`, `0`-`9`,
`+`, `/`); other characters are ignored by Node's decoder. -/
def b64Val (c : Char) : Option Nat :=
  if 'A' ≤ c && c ≤ 'Z' then some (c.toNat - 65)
  else if 'a' ≤ c && c ≤ 'z' then some (c.toNat - 97 + 26)
  else if c.isDigit then some (c.toNat - 48 + 52)
  else if c = '+' then some 62
  else if c = '/' then some 63
  else none

/-- Byte reassembly of a sextet stream: full groups of four sextets yield
three bytes, a trailing pair yields one byte, a trailing triple two bytes,
a lone trailing sextet is dropped. -/
def b64Bytes : List Nat → List Nat
  | a :: b :: c :: d :: rest =>
      (a * 4 + b / 16) :: ((b % 16) * 16 + c / 4) :: ((c % 4) * 64 + d) :: b64Bytes rest
  | [a, b] => [a * 4 + b / 16]
  | [a, b, c] => [a * 4 + b / 16, (b % 16) * 16 + c / 4]
  | _ => []

/-- Model of `Buffer.from(data, 'base64')`. -/
def bufferFromBase64 (s : String) : List Nat :=
  b64Bytes (s.data.filterMap b64Val)

/-- Request-body `parentId` as destructured in `validateBody`: the default
`0` when absent, then `'0'` coerced to the number `0`; any other string is
kept as-is. -/
inductive PVal
  | zero
  | str (s : String)
deriving DecidableEq

/-- JS truthiness of the normalized `parentId` (the number `0` and the empty
string are falsy). -/
def PVal.truthy : PVal → Bool
  | PVal.zero => false
  | PVal.str s => truthyStr s

/-- Normalization at the top of `validateBody`: `let { parentId = 0 } =
request.body; if (parentId === '0') parentId = 0`. -/
def normalizeBodyParent : Option String → PVal
  | none => PVal.zero
  | some s => if s = "0" then PVal.zero else PVal.str s

/-- The request body of an upload, with absent fields as `none` (an empty
string behaves like an absent field under JS truthiness). -/
structure ReqBody where
  name : Option String
  type : Option String
  isPublic : Bool
  data : Option String
  parentId : Option String
deriving DecidableEq

/-- The `fileParams` object returned by `validateBody`. -/
structure FileParams where
  name : Option String
  type : Option String
  parentId : PVal
  isPublic : Bool
  data : Option String
deriving DecidableEq

/-- The `typesAllowed` list of `validateBody`. -/
def typesAllowed : List String := ["file", "image", "folder"]

/-- Model of `fileUtils.validateBody`: the short-circuiting field checks in
source order, then the parent lookup for a truthy non-root `parentId`
(`ObjectId(parentId)` is only attempted when the id is syntactically valid,
otherwise the parent is treated as not found). -/
def validateBody (store : List FileDoc) (body : ReqBody) : Option String × FileParams :=
  let parentId := normalizeBodyParent body.parentId
  let msg : Option String :=
    if ¬ truthy body.name then some "Missing name"
    else if ¬ truthy body.type ∨ ¬ ((body.type.getD "") ∈ typesAllowed) then some "Missing type"
    else if ¬ truthy body.data ∧ body.type ≠ some "folder" then some "Missing data"
    else if PVal.truthy parentId then
      match (match parentId with
             | PVal.str s => if isValidIdStr s then findFileById store s else none
             | PVal.zero => none) with
      | none => some "Parent not found"
      | some f => if f.type ≠ "folder" then some "Parent is not a folder" else none
    else none
  (msg, { name := body.name, type := body.type, parentId := parentId,
          isPublic := body.isPublic, data := body.data })

/-- A thumbnail job's payload, as enqueued on the file queue. -/
structure JobData where
  fileId : Option String
  userId : Option String
deriving DecidableEq

/-- Observable store/queue events of an upload, in program order. -/
inductive Event
  | insert (d : FileDoc)
  | enqueue (j : JobData)
deriving DecidableEq

/-- Outcome object of `fileUtils.saveFile`: `{error, code}` on a disk
failure, `{error: null, newFile}` on success. -/
inductive SaveOutcome
  | err (msg : String) (code : Nat)
  | ok (newFile : Obj)
deriving DecidableEq

/-- The `processFile` transformation of `fileUtils`: prepend `id` holding the
document's `_id`, spread the document over it, then delete `localPath` and
`_id`. -/
def processFile (doc : Obj) : Obj :=
  let file := objSpread [("id", (objGet doc "_id").getD JVal.undef)] doc
  objDelete (objDelete file "localPath") "_id"

/-- The `if (parentId !== 0) parentId = ObjectId(parentId)` conversion at
the top of `saveFile`. -/
def saveParentRef : PVal → ParentRef
  | PVal.zero => ParentRef.root
  | PVal.str s => ParentRef.oid s

/-- The document `saveFile` builds and inserts (after the driver mutated it
with the assigned `_id`); non-folder creations carry the storage path. -/
def savedDoc (userId : String) (p : FileParams) (localPath : Option String)
    (insertedId : String) : FileDoc :=
  { _id := insertedId, userId := userId, name := p.name.getD "",
    type := p.type.getD "", isPublic := p.isPublic,
    parentId := saveParentRef p.parentId, localPath := localPath }

/-- Model of `fileUtils.saveFile`.  `fileNameUUID` stands for the fresh
`uuidv4()` and `insertedId` for the id the store assigns on `insertOne`
(the driver mutates the inserted document, so `processFile` sees `_id`).
For a non-folder type the base64 payload is decoded and written under the
storage root first; a disk failure aborts with `{error, code: 400}` and
nothing is inserted.  The returned event list records the insert. -/
def saveFile (store : List FileDoc) (fs : Fs) (userId : String) (p : FileParams)
    (FOLDER_PATH : String) (fileNameUUID : String) (insertedId : String) :
    SaveOutcome × List FileDoc × Fs × List Event :=
  if p.type ≠ some "folder" then
    let fileDataDecoded := bufferFromBase64 (p.data.getD "")
    let path := FOLDER_PATH ++ "/" ++ fileNameUUID
    match fs.mkdirWrite path fileDataDecoded with
    | Except.error e => (SaveOutcome.err e 400, store, fs, [])
    | Except.ok fsNew =>
      let query := savedDoc userId p (some path) insertedId
      let newFile := objSpread [("id", JVal.oid insertedId)] (processFile query.toObj)
      (SaveOutcome.ok newFile, store ++ [query], fsNew, [Event.insert query])
  else
    let query := savedDoc userId p none insertedId
    let newFile := objSpread [("id", JVal.oid insertedId)] (processFile query.toObj)
    (SaveOutcome.ok newFile, store ++ [query], fs, [Event.insert query])

/-- Message of the TypeError raised by `response.body.type` on the Express
response object (which has no `body` property); the exact wording is
Node-version dependent. -/
def typeErrMsg : String :=
  "TypeError: Cannot read properties of undefined (reading \x27type\x27)"

/-- Body of a JSON error response. -/
def errObj (msg : String) : Obj := [("error", JVal.str msg)]

/-- A response: an HTTP status with a body, or an uncaught exception escaping
the handler. -/
inductive RespBody
  | obj (o : Obj)
  | arr (l : List Obj)
  | str (s : String)
  | bytes (b : List Nat)
deriving DecidableEq

/-- An endpoint outcome. -/
inductive Response
  | resp (status : Nat) (body : RespBody)
  | thrown (msg : String)
deriving DecidableEq

/-- Result of `FilesController.postUpload`: the response plus the resulting
files collection, filesystem and event trace. -/
structure UploadResult where
  response : Response
  store : List FileDoc
  fs : Fs
  events : List Event
deriving DecidableEq

/-- Model of `FilesController.postUpload`.  `userId` is the identity
resolver's output (`null` when the token misses).  Note the source's order:
the `isValidId` gate (which passes on `null`), the pre-persistence enqueue
of an empty job for an anonymous image request, user lookup, body
validation, the extra `parentId` validity gate, then `saveFile`; on a
`saveFile` error the handler dereferences `response.body.type`, which
throws, and on success an image enqueues the `{fileId, userId}` job. -/
def postUpload (users : List String) (store : List FileDoc) (fs : Fs)
    (userId : Option String) (body : ReqBody) (FOLDER_PATH : String)
    (fileNameUUID : String) (insertedId : String) : UploadResult :=
  if ¬ isValidId userId then ⟨Response.resp 401 (RespBody.obj (errObj "Unauthorized")), store, fs, []⟩
  else
    let ev0 : List Event :=
      if ¬ truthy userId ∧ body.type = some "image" then [Event.enqueue ⟨none, none⟩] else []
    match getUserByOptId users userId with
    | none => ⟨Response.resp 401 (RespBody.obj (errObj "Unauthorized")), store, fs, ev0⟩
    | some u =>
      match validateBody store body with
      | (some msg, _) => ⟨Response.resp 400 (RespBody.obj (errObj msg)), store, fs, ev0⟩
      | (none, fileParams) =>
        let parentInvalid : Bool := match fileParams.parentId with
          | PVal.zero => false
          | PVal.str s => !(isValidIdStr s)
        if parentInvalid then
          ⟨Response.resp 400 (RespBody.obj (errObj "Parent not found")), store, fs, ev0⟩
        else
          match saveFile store fs u fileParams FOLDER_PATH fileNameUUID insertedId with
          | (SaveOutcome.err _ _, store1, fs1, evs) =>
            ⟨Response.thrown typeErrMsg, store1, fs1, ev0 ++ evs⟩
          | (SaveOutcome.ok newFile, store1, fs1, evs) =>
            let ev1 : List Event :=
              if fileParams.type = some "image"
              then [Event.enqueue ⟨some insertedId, some u⟩] else []
            ⟨Response.resp 201 (RespBody.obj newFile), store1, fs1, ev0 ++ evs ++ ev1⟩

/-- Model of `FilesController.getShow`.  The user lookup happens before any
id validity check, so a token resolving to a malformed user id makes
`ObjectId(userId)` throw; an anonymous caller's `ObjectId(null)` generates
a fresh id that matches no user, yielding 401. -/
def getShow (users : List String) (store : List FileDoc) (userId : Option String)
    (fileId : String) : Response :=
  match userId with
  | none => Response.resp 401 (RespBody.obj (errObj "Unauthorized"))
  | some s =>
    if ¬ isValidIdStr s then Response.thrown objectIdErrMsg
    else if ¬ (s ∈ users) then Response.resp 401 (RespBody.obj (errObj "Unauthorized"))
    else if ¬ isValidIdStr fileId ∨ ¬ isValidIdStr s then
      Response.resp 404 (RespBody.obj (errObj "Not found"))
    else
      match findFileByIdUser store fileId s with
      | none => Response.resp 404 (RespBody.obj (errObj "Not found"))
      | some d => Response.resp 200 (RespBody.obj (processFile d.toObj))

/-- Normalization of the `parentId` query parameter in `getIndex`:
`request.query.parentId || '0'` (absent or empty gives `'0'`), then `'0'`
coerced to the number `0`. -/
def normalizeQueryParent : Option String → PVal
  | none => PVal.zero
  | some s => if s = "" ∨ s = "0" then PVal.zero else PVal.str s

/-- The aggregation pipeline of `getIndex`: match on `parentId` alone, skip
`page * 20`, limit 20, in store order, each document projected through
`processFile`. -/
def listWindow (store : List FileDoc) (pid : ParentRef) (page : Nat) : Response :=
  let matched := store.filter (fun d => d.parentId == pid)
  let windowed := (matched.drop (page * 20)).take 20
  Response.resp 200 (RespBody.arr (windowed.map (fun d => processFile d.toObj)))

/-- Model of `FilesController.getIndex`.  `page` is the query page after the
source's numeric coercion (non-numeric input coerces to 0).  A malformed
non-root `parentId` yields 401; a valid one resolving to a missing or
non-folder entry yields an empty 200 list; otherwise the pipeline runs. -/
def getIndex (users : List String) (store : List FileDoc) (userId : Option String)
    (parentIdQ : Option String) (page : Nat) : Response :=
  match userId with
  | none => Response.resp 401 (RespBody.obj (errObj "Unauthorized"))
  | some s =>
    if ¬ isValidIdStr s then Response.thrown objectIdErrMsg
    else if ¬ (s ∈ users) then Response.resp 401 (RespBody.obj (errObj "Unauthorized"))
    else
      match normalizeQueryParent parentIdQ with
      | PVal.zero => listWindow store ParentRef.root page
      | PVal.str ps =>
        if ¬ isValidIdStr ps then Response.resp 401 (RespBody.obj (errObj "Unauthorized"))
        else
          match findFileById store ps with
          | none => Response.resp 200 (RespBody.arr [])
          | some folder =>
            if folder.type ≠ "folder" then Response.resp 200 (RespBody.arr [])
            else listWindow store (ParentRef.oid ps) page

/-- Outcome of `fileUtils.publishUnpublish`. -/
inductive PubOutcome
  | err (msg : String) (code : Nat)
  | ok (code : Nat) (updatedFile : Obj)
deriving DecidableEq

/-- The `findOneAndUpdate` of `fileUtils.updateFile` on an `{_id, userId}`
filter with `$set {isPublic}`: the first matching document is updated. -/
def updateIsPublicFirst : List FileDoc → String → String → Bool → List FileDoc
  | [], _, _, _ => []
  | d :: rest, fid, uid, b =>
    if d._id == fid && d.userId == uid then { d with isPublic := b } :: rest
    else d :: updateIsPublicFirst rest fid uid b

/-- Model of `fileUtils.publishUnpublish`: validate `fileId`, then the
resolved `userId` (`isValidId(null)` is `true`, but the subsequent user
lookup on a fresh id misses), load the user, load the file scoped to
`(fileId, userId)`, flip `isPublic` and return the explicit six-field
projection of the updated document. -/
def publishUnpublish (users : List String) (store : List FileDoc) (userId : Option String)
    (fileId : String) (setPublish : Bool) : PubOutcome × List FileDoc :=
  if ¬ isValidIdStr fileId then (PubOutcome.err "Unauthorized" 401, store)
  else if ¬ isValidId userId then (PubOutcome.err "Unauthorized" 401, store)
  else
    match getUserByOptId users userId with
    | none => (PubOutcome.err "Unauthorized" 401, store)
    | some u =>
      match findFileByIdUser store fileId u with
      | none => (PubOutcome.err "Not found" 404, store)
      | some file =>
        let updated := { file with isPublic := setPublish }
        let updatedFile : Obj :=
          [("id", JVal.oid updated._id), ("userId", JVal.oid updated.userId),
           ("name", JVal.str updated.name), ("type", JVal.str updated.type),
           ("isPublic", JVal.bool updated.isPublic), ("parentId", JVal.pref updated.parentId)]
        (PubOutcome.ok 200 updatedFile, updateIsPublicFirst store fileId u setPublish)

/-- Model of `FilesController.putPublish`: errors are wrapped in an `{error}`
body, success returns the updated projection with the outcome's code. -/
def putPublish (users : List String) (store : List FileDoc) (userId : Option String)
    (fileId : String) : Response × List FileDoc :=
  match publishUnpublish users store userId fileId true with
  | (PubOutcome.err e code, store1) => (Response.resp code (RespBody.obj (errObj e)), store1)
  | (PubOutcome.ok code f, store1) => (Response.resp code (RespBody.obj f), store1)

/-- Model of `FilesController.putUnpublish`. -/
def putUnpublish (users : List String) (store : List FileDoc) (userId : Option String)
    (fileId : String) : Response × List FileDoc :=
  match publishUnpublish users store userId fileId false with
  | (PubOutcome.err e code, store1) => (Response.resp code (RespBody.obj (errObj e)), store1)
  | (PubOutcome.ok code f, store1) => (Response.resp code (RespBody.obj f), store1)

/-- Model of `fileUtils.isOwnerAndPublic`: denied iff the entry is private
and the caller is anonymous, or a present caller differs from the owner on
a private entry. -/
def isOwnerAndPublic (file : FileDoc) (userId : Option String) : Bool :=
  if ((!file.isPublic) && (!truthy userId))
     || ((truthy userId) && (file.userId != userId.getD "") && (!file.isPublic))
  then false
  else true

/-- Model of `fileUtils.getFileData`: resolve `localPath` (suffixed with
`_<size>` for a truthy size selector) and read it; a folder document has no
`localPath`, so the read rejects, and any read failure maps to a 404. -/
def getFileData (fs : Fs) (file : FileDoc) (size : Option String) :
    Except (String × Nat) (List Nat) :=
  match file.localPath with
  | none => Except.error ("Not found", 404)
  | some lp =>
    let localPath := if truthy size then lp ++ "_" ++ size.getD "" else lp
    match fs.read localPath with
    | none => Except.error ("Not found", 404)
    | some d => Except.ok d

/-- Model of the content-fetch endpoint `FilesController.getFile`: validate
the file id, load the document by `_id` alone, gate on `isOwnerAndPublic`,
reject folders with a domain error, then stream the resolved bytes. -/
def getFileContent (store : List FileDoc) (fs : Fs) (userId : Option String)
    (fileId : String) (size : Option String) : Response :=
  if ¬ isValidIdStr fileId then Response.resp 404 (RespBody.obj (errObj "Not found"))
  else
    match findFileById store fileId with
    | none => Response.resp 404 (RespBody.obj (errObj "Not found"))
    | some file =>
      if ¬ isOwnerAndPublic file userId then Response.resp 404 (RespBody.obj (errObj "Not found"))
      else if file.type = "folder" then
        Response.resp 400 (RespBody.obj (errObj "A folder doesn\x27t have content"))
      else
        match getFileData fs file size with
        | Except.error (e, code) => Response.resp code (RespBody.obj (errObj e))
        | Except.ok d => Response.resp 200 (RespBody.bytes d)

/-- The `job.data.fileId || null` normalization of the worker: an absent or
empty string becomes `null`. -/
def jsOrNull : Option String → Option String
  | none => none
  | some s => if s = "" then none else some s

/-- Template-literal coercion of a possibly-undefined path. -/
def jsPathStr : Option String → String
  | some p => p
  | none => "undefined"

/-- Outcome of a queue job. -/
inductive JobResult
  | done
  | failed (msg : String)
deriving DecidableEq

/-- Model of the worker's `generateThumbnail`: produce the resized buffer
via the thumbnailer `thumb` (an oracle for `imgThumbnail` over the original
at `filePath`), then write it to `filePath_<size>`. -/
def generateThumbnail (thumb : String → Nat → Except String (List Nat)) (fs : Fs)
    (filePath : String) (size : Nat) : Except String Fs :=
  match thumb filePath size with
  | Except.error e => Except.error e
  | Except.ok buffer => fs.writeFile (filePath ++ "_" ++ toString size) buffer

/-- The three fixed derivative widths of the worker. -/
def thumbnailSizes : List Nat := [500, 250, 100]

/-- The `Promise.all` fan-out over the three widths, determinized in array
order: every width runs (later widths are not skipped by an earlier
failure, matching the parallel semantics — each generation depends only on
the original file and its own target path), successful writes all land,
and the collected errors keep array order, the first being the one the
rejected `Promise.all` reports. -/
def runThumbnails (thumb : String → Nat → Except String (List Nat)) (fs : Fs)
    (filePath : String) : Fs × List String :=
  thumbnailSizes.foldl
    (fun acc size =>
      match generateThumbnail thumb acc.1 filePath size with
      | Except.ok fsNew => (fsNew, acc.2)
      | Except.error e => (acc.1, acc.2 ++ [e]))
    (fs, [])

/-- Model of the worker's `fileQueue.process` handler: validate that the job
carries a fileId and a userId (else the job fails with the thrown error),
convert them to ObjectIds (a malformed id makes the constructor throw),
load the file scoped to `(fileId, userId)`, then fan out the three
thumbnail generations and complete only if none failed. -/
def processFileQueueJob (store : List FileDoc)
    (thumb : String → Nat → Except String (List Nat)) (fs : Fs) (job : JobData) :
    JobResult × Fs :=
  match jsOrNull job.fileId with
  | none => (JobResult.failed "Missing fileId", fs)
  | some fileId =>
    match jsOrNull job.userId with
    | none => (JobResult.failed "Missing userId", fs)
    | some userId =>
      if ¬ isValidIdStr userId then (JobResult.failed objectIdErrMsg, fs)
      else if ¬ isValidIdStr fileId then (JobResult.failed objectIdErrMsg, fs)
      else
        match findFileByIdUser store fileId userId with
        | none => (JobResult.failed "File not found", fs)
        | some file =>
          let r := runThumbnails thumb fs (jsPathStr file.localPath)
          match r.2 with
          | [] => (JobResult.done, r.1)
          | e :: _ => (JobResult.failed e, r.1)

/-- Recognizer for insert events of an upload trace. -/
def isInsert : Event → Bool
  | Event.insert _ => true
  | Event.enqueue _ => false

/-- A response body carries no `localPath` and no raw `_id` key. -/
def objClean (o : Obj) : Bool := !(objHas o "localPath") && !(objHas o "_id")

/-- Every object appearing in the response (single body or listed) is clean. -/
def respClean : Response → Bool
  | Response.resp _ (RespBody.obj o) => objClean o
  | Response.resp _ (RespBody.arr l) => l.all objClean
  | _ => true

/-- A syntactically valid ObjectId string is nonempty, hence JS-truthy. -/
theorem truthyStr_of_isValidIdStr (s : String) (h : isValidIdStr s = true) :
    truthyStr s = true := by
  unfold isValidIdStr at h
  unfold truthyStr
  simp only [Bool.or_eq_true, Bool.and_eq_true, beq_iff_eq] at h
  rcases h with h | ⟨h, _⟩ <;> simp [h]

/-- Reading back the key just written into an association list. -/
theorem lookupAssoc_setAssoc_self {α : Type} (l : List (String × α)) (k : String) (v : α) :
    lookupAssoc (setAssoc l k v) k = some v := by
  induction l with
  | nil => simp [setAssoc, lookupAssoc, List.find?]
  | cons p rest ih =>
    by_cases h : p.1 == k
    · simp [setAssoc, h, lookupAssoc, List.find?]
    · simpa [setAssoc, h, lookupAssoc, List.find?] using ih

/-- `findOne` on a store extended with a fresh id finds the new document. -/
theorem findFileById_append_fresh (store : List FileDoc) (q : FileDoc)
    (hfresh : ∀ d ∈ store, d._id ≠ q._id) :
    findFileById (store ++ [q]) q._id = some q := by
  induction store with
  | nil => simp [findFileById, List.find?]
  | cons d rest ih =>
    have hd : d._id ≠ q._id := hfresh d (by simp)
    have ih2 := ih (fun d2 h2 => hfresh d2 (by simp [h2]))
    unfold findFileById at ih2 ⊢
    rw [List.cons_append, List.find?_cons_of_neg]
    · exact ih2
    · simp [hd]

/-- The access predicate in terms of ownership and visibility: permitted iff
the entry is public or the caller is exactly the owner (owner ids are valid
ObjectId strings, hence truthy). -/
theorem isOwnerAndPublic_iff (f : FileDoc) (caller : Option String)
    (howner : isValidIdStr f.userId = true) :
    (isOwnerAndPublic f caller = true ↔ (f.isPublic = true ∨ caller = some f.userId)) := by
  have hlen : truthyStr f.userId = true := truthyStr_of_isValidIdStr _ howner
  unfold isOwnerAndPublic
  cases caller with
  | none =>
    cases hp : f.isPublic <;> simp [truthy, hp]
  | some s =>
    cases hp : f.isPublic with
    | true => simp [truthy, hp]
    | false =>
      by_cases hs : truthyStr s = true
      · by_cases he : f.userId = s
        · simp [truthy, hp, hs, he]
        · have hne : s ≠ f.userId := fun h2 => he h2.symm
          simp [truthy, hp, hs, bne_iff_ne, he, hne]
      · have hne : s ≠ f.userId := by
          intro hcontra
          rw [hcontra] at hs
          exact hs hlen
        have hs2 : truthyStr s = false := by
          cases h2 : truthyStr s
          · rfl
          · exact absurd h2 hs
        simp [truthy, hp, hs2, hne]

/-- Concrete owner id used by witnesses. -/
def wUserId : String := "aaaaaaaaaaaaaaaaaaaaaaaa"

/-- Concrete file id used by witnesses. -/
def wFileId : String := "bbbbbbbbbbbbbbbbbbbbbbbb"

/-- Concrete foreign user id used by witnesses. -/
def wOtherId : String := "cccccccccccccccccccccccc"

/-- Empty fault-free filesystem used by witnesses. -/
def wFs : Fs := ⟨[], none, []⟩

/-- Concrete private image entry used by witnesses. -/
def wPrivFile : FileDoc :=
  ⟨wFileId, wUserId, "pic.png", "image", false, ParentRef.root, some "/tmp/files_manager/w1"⟩

/-- C1: for a stored entry, the content-fetch access check permits the read
iff the entry is public or the caller id is present and equals the owner;
a private entry fetched by any caller other than its owner (including an
anonymous one) yields the 404 Not found response, and a public entry
passes the access check for every caller. -/
theorem c1_content_fetch_access_control (store : List FileDoc) (fs : Fs) (f : FileDoc)
    (caller : Option String) (size : Option String)
    (howner : isValidIdStr f.userId = true)
    (hfid : isValidIdStr f._id = true)
    (hfind : findFileById store f._id = some f) :
    (isOwnerAndPublic f caller = true ↔ (f.isPublic = true ∨ caller = some f.userId))
    ∧ (f.isPublic = false → caller ≠ some f.userId →
        getFileContent store fs caller f._id size
          = Response.resp 404 (RespBody.obj (errObj "Not found")))
    ∧ (f.isPublic = true → isOwnerAndPublic f caller = true) := by
  have hiff := isOwnerAndPublic_iff f caller howner
  refine ⟨hiff, ?_, ?_⟩
  · intro hp hne
    have hdeny : isOwnerAndPublic f caller = false := by
      cases h2 : isOwnerAndPublic f caller
      · rfl
      · rcases hiff.mp h2 with h3 | h3
        · rw [hp] at h3
          exact absurd h3 (by simp)
        · exact absurd h3 hne
    simp [getFileContent, hfid, hfind, hdeny]
  · intro hp
    exact hiff.mpr (Or.inl hp)

/-- Witness for C1: the concrete private entry fetched anonymously is
rejected with the 404 body. -/
theorem c1_witness :
    getFileContent [wPrivFile] wFs none wPrivFile._id none
      = Response.resp 404 (RespBody.obj (errObj "Not found")) :=
  (c1_content_fetch_access_control [wPrivFile] wFs wPrivFile none none (by decide) (by decide)
      (by decide)).2.1 (by decide) (by decide)

/-- A failing `saveFile` leaves the store and the filesystem untouched and
records no event. -/
theorem saveFile_err_inv (store : List FileDoc) (fs : Fs) (userId : String) (p : FileParams)
    (FP uuid iid : String) (e : String) (c : Nat) (store1 : List FileDoc) (fs1 : Fs)
    (evs : List Event)
    (h : saveFile store fs userId p FP uuid iid = (SaveOutcome.err e c, store1, fs1, evs)) :
    store1 = store ∧ fs1 = fs ∧ evs = [] := by
  unfold saveFile at h
  by_cases ht : p.type ≠ some "folder"
  · rw [if_pos ht] at h
    cases hm : Fs.mkdirWrite fs (FP ++ "/" ++ uuid) (bufferFromBase64 (p.data.getD "")) with
    | error e2 =>
      simp only [hm, Prod.mk.injEq, SaveOutcome.err.injEq] at h
      exact ⟨h.2.1.symm, h.2.2.1.symm, h.2.2.2.symm⟩
    | ok fsNew =>
      simp only [hm] at h
      simp at h
  · rw [if_neg ht] at h
    simp at h

/-- A successful `saveFile` appends exactly one document carrying the
assigned id and records exactly its insert event. -/
theorem saveFile_ok_inv (store : List FileDoc) (fs : Fs) (userId : String) (p : FileParams)
    (FP uuid iid : String) (nf : Obj) (store1 : List FileDoc) (fs1 : Fs) (evs : List Event)
    (h : saveFile store fs userId p FP uuid iid = (SaveOutcome.ok nf, store1, fs1, evs)) :
    ∃ q : FileDoc, q._id = iid ∧ q.userId = userId ∧ store1 = store ++ [q]
      ∧ evs = [Event.insert q] := by
  unfold saveFile at h
  by_cases ht : p.type ≠ some "folder"
  · rw [if_pos ht] at h
    cases hm : Fs.mkdirWrite fs (FP ++ "/" ++ uuid) (bufferFromBase64 (p.data.getD "")) with
    | error e2 =>
      simp only [hm] at h
      simp at h
    | ok fsNew =>
      simp only [hm, Prod.mk.injEq] at h
      exact ⟨_, rfl, rfl, h.2.1.symm, h.2.2.2.symm⟩
  · rw [if_neg ht] at h
    simp only [Prod.mk.injEq] at h
    exact ⟨_, rfl, rfl, h.2.1.symm, h.2.2.2.symm⟩

/-- Across `postUpload`, the files collection changes only when the request
ends in a 201 with the created entry in the body. -/
theorem postUpload_store_unchanged_or_201 (users : List String) (store : List FileDoc)
    (fs : Fs) (uid : Option String) (body : ReqBody) (FP uuid iid : String) :
    (postUpload users store fs uid body FP uuid iid).store = store
    ∨ ∃ o, (postUpload users store fs uid body FP uuid iid).response
             = Response.resp 201 (RespBody.obj o) := by
  by_cases h1 : isValidId uid = true
  case neg =>
    left
    simp [postUpload, h1]
  case pos =>
    cases h2 : getUserByOptId users uid with
    | none =>
      left
      simp [postUpload, h1, h2]
    | some u =>
      rcases h3 : validateBody store body with ⟨verr, fp⟩
      cases verr with
      | some msg =>
        left
        simp [postUpload, h1, h2, h3]
      | none =>
        cases hp : fp.parentId with
        | str s =>
          by_cases hv : isValidIdStr s = true
          · rcases h5 : saveFile store fs u fp FP uuid iid with ⟨out, st1, fs1, evs⟩
            cases out with
            | err e c =>
              left
              have hinv := saveFile_err_inv store fs u fp FP uuid iid e c st1 fs1 evs h5
              simp [postUpload, h1, h2, h3, hp, hv, h5, hinv.1]
            | ok nf =>
              right
              refine ⟨nf, ?_⟩
              simp [postUpload, h1, h2, h3, hp, hv, h5]
          · left
            simp [postUpload, h1, h2, h3, hp, hv]
        | zero =>
          rcases h5 : saveFile store fs u fp FP uuid iid with ⟨out, st1, fs1, evs⟩
          cases out with
          | err e c =>
            left
            have hinv := saveFile_err_inv store fs u fp FP uuid iid e c st1 fs1 evs h5
            simp [postUpload, h1, h2, h3, hp, h5, hinv.1]
          | ok nf =>
            right
            refine ⟨nf, ?_⟩
            simp [postUpload, h1, h2, h3, hp, h5]

/-- C3: a disk failure (creating the storage root or writing the decoded
payload) on a non-folder creation makes `saveFile` abort with the
underlying message and code 400, inserting nothing and recording no event;
moreover, across all of `postUpload`, the files collection changes only
when the request ends in a 201. -/
theorem c3_disk_failure_aborts (store : List FileDoc) (fs : Fs) (userId : String)
    (p : FileParams) (FOLDER_PATH fileNameUUID insertedId : String) (e : String)
    (htype : p.type ≠ some "folder")
    (herr : fs.mkdirWrite (FOLDER_PATH ++ "/" ++ fileNameUUID)
              (bufferFromBase64 (p.data.getD "")) = Except.error e) :
    saveFile store fs userId p FOLDER_PATH fileNameUUID insertedId
        = (SaveOutcome.err e 400, store, fs, [])
    ∧ ∀ users store0 fs0 uid body FP uuid iid,
        (postUpload users store0 fs0 uid body FP uuid iid).store = store0
        ∨ ∃ o, (postUpload users store0 fs0 uid body FP uuid iid).response
                 = Response.resp 201 (RespBody.obj o) := by
  constructor
  · unfold saveFile
    rw [if_pos htype]
    simp only [herr]
  · intro users store0 fs0 uid body FP uuid iid
    exact postUpload_store_unchanged_or_201 users store0 fs0 uid body FP uuid iid

/-- Concrete filesystem whose storage-root creation fails. -/
def wFailFs : Fs := ⟨[], some "ENOSPC: no space left on device", []⟩

/-- Witness for C3: a concrete failing disk aborts the concrete non-folder
creation with the underlying message, code 400 and no insert. -/
theorem c3_witness :
    saveFile [] wFailFs wUserId ⟨some "notes.txt", some "file", PVal.zero, false, some "aGVsbG8="⟩
        "/tmp/files_manager" "uuid-1" wFileId
      = (SaveOutcome.err "ENOSPC: no space left on device" 400, [], wFailFs, []) :=
  (c3_disk_failure_aborts [] wFailFs wUserId
      ⟨some "notes.txt", some "file", PVal.zero, false, some "aGVsbG8="⟩
      "/tmp/files_manager" "uuid-1" wFileId "ENOSPC: no space left on device"
      (by decide) (by rfl)).1

/-- A successful user lookup pins the resolved id and its membership. -/
theorem getUserByOptId_some (users : List String) (uid : Option String) (u : String)
    (h : getUserByOptId users uid = some u) : uid = some u ∧ u ∈ users := by
  cases uid with
  | none => simp [getUserByOptId] at h
  | some s =>
    by_cases hs : s ∈ users
    · simp only [getUserByOptId, if_pos hs, Option.some.injEq] at h
      subst h
      exact ⟨rfl, hs⟩
    · simp [getUserByOptId, hs] at h

/-- The event trace of an upload is one of: nothing; the pre-authentication
empty-job enqueue alone; a single insert; or an insert followed by the
enqueue of the job carrying the inserted row's id. -/
theorem postUpload_events_cases (users : List String) (store : List FileDoc)
    (fs : Fs) (uid : Option String) (body : ReqBody) (FP uuid iid : String) :
    (postUpload users store fs uid body FP uuid iid).events = []
    ∨ (postUpload users store fs uid body FP uuid iid).events = [Event.enqueue ⟨none, none⟩]
    ∨ (∃ q : FileDoc, (postUpload users store fs uid body FP uuid iid).events
         = [Event.insert q])
    ∨ (∃ q : FileDoc, ∃ u2 : String, q._id = iid
         ∧ (postUpload users store fs uid body FP uuid iid).events
             = [Event.insert q, Event.enqueue ⟨some iid, some u2⟩]) := by
  by_cases h1 : isValidId uid = true
  case neg =>
    left
    simp [postUpload, h1]
  case pos =>
    cases h2 : getUserByOptId users uid with
    | none =>
      cases htry : truthy uid with
      | false =>
        by_cases himg2 : body.type = some "image"
        · right; left
          simp [postUpload, h1, h2, htry, himg2]
        · left
          simp [postUpload, h1, h2, htry, himg2]
      | true =>
        left
        simp [postUpload, h1, h2, htry]
    | some u =>
      have hu := getUserByOptId_some users uid u h2
      have hvalid : isValidIdStr u = true := by
        rw [hu.1] at h1
        exact h1
      have htr : truthy uid = true := by
        rw [hu.1]
        exact truthyStr_of_isValidIdStr u hvalid
      rcases h3 : validateBody store body with ⟨verr, fp⟩
      cases verr with
      | some msg =>
        left
        simp [postUpload, h1, h2, h3, htr]
      | none =>
        cases hp : fp.parentId with
        | str s =>
          by_cases hv : isValidIdStr s = true
          · rcases h5 : saveFile store fs u fp FP uuid iid with ⟨out, st1, fs1, evs⟩
            cases out with
            | err e c =>
              left
              have hinv := saveFile_err_inv store fs u fp FP uuid iid e c st1 fs1 evs h5
              simp [postUpload, h1, h2, h3, hp, hv, h5, htr, hinv.2.2]
            | ok nf =>
              obtain ⟨q, hq1, hq2, hq3, hq4⟩ :=
                saveFile_ok_inv store fs u fp FP uuid iid nf st1 fs1 evs h5
              by_cases himg : fp.type = some "image"
              · right; right; right
                refine ⟨q, u, hq1, ?_⟩
                simp [postUpload, h1, h2, h3, hp, hv, h5, htr, himg, hq4]
              · right; right; left
                refine ⟨q, ?_⟩
                simp [postUpload, h1, h2, h3, hp, hv, h5, htr, himg, hq4]
          · left
            simp [postUpload, h1, h2, h3, hp, hv, htr]
        | zero =>
          rcases h5 : saveFile store fs u fp FP uuid iid with ⟨out, st1, fs1, evs⟩
          cases out with
          | err e c =>
            left
            have hinv := saveFile_err_inv store fs u fp FP uuid iid e c st1 fs1 evs h5
            simp [postUpload, h1, h2, h3, hp, h5, htr, hinv.2.2]
          | ok nf =>
            obtain ⟨q, hq1, hq2, hq3, hq4⟩ :=
              saveFile_ok_inv store fs u fp FP uuid iid nf st1 fs1 evs h5
            by_cases himg : fp.type = some "image"
            · right; right; right
              refine ⟨q, u, hq1, ?_⟩
              simp [postUpload, h1, h2, h3, hp, h5, htr, himg, hq4]
            · right; right; left
              refine ⟨q, ?_⟩
              simp [postUpload, h1, h2, h3, hp, h5, htr, himg, hq4]

/-- C4 counterexample: an unauthenticated image upload enqueues a job on the
file queue although its trace contains no insert at all — the request ends
401 with the store untouched, so this enqueue precedes any persistence. -/
theorem c4_counterexample :
    (postUpload [] [] wFs none ⟨some "n", some "image", false, some "aGVsbG8=", none⟩
        "/tmp/files_manager" "uuid-1" wFileId).events = [Event.enqueue ⟨none, none⟩]
    ∧ ((postUpload [] [] wFs none ⟨some "n", some "image", false, some "aGVsbG8=", none⟩
        "/tmp/files_manager" "uuid-1" wFileId).events.filter isInsert) = []
    ∧ (postUpload [] [] wFs none ⟨some "n", some "image", false, some "aGVsbG8=", none⟩
        "/tmp/files_manager" "uuid-1" wFileId).store = [] := by
  refine ⟨?_, ?_, ?_⟩ <;> decide

/-- C4 amended: every enqueued thumbnail job that carries a fileId occurs in
the trace strictly after the insert of the metadata row whose id it
carries; only the empty job of an unauthenticated image request is ever
enqueued without a preceding insert. -/
theorem c4_enqueue_after_persist_amended (users : List String) (store : List FileDoc)
    (fs : Fs) (uid : Option String) (body : ReqBody) (FP uuid iid : String)
    (i : Nat) (j : JobData) (fid : String)
    (hev : (postUpload users store fs uid body FP uuid iid).events.get? i
            = some (Event.enqueue j))
    (hfid : j.fileId = some fid) :
    ∃ k d, k < i
      ∧ (postUpload users store fs uid body FP uuid iid).events.get? k
          = some (Event.insert d)
      ∧ d._id = fid := by
  rcases postUpload_events_cases users store fs uid body FP uuid iid with
    hc | hc | ⟨q, hc⟩ | ⟨q, u2, hq, hc⟩
  · rw [hc] at hev
    simp at hev
  · rw [hc] at hev
    cases i with
    | zero =>
      simp at hev
      rw [← hev] at hfid
      simp at hfid
    | succ n => simp at hev
  · rw [hc] at hev
    cases i with
    | zero => simp at hev
    | succ n => simp at hev
  · rw [hc] at hev
    cases i with
    | zero => simp at hev
    | succ n =>
      cases n with
      | zero =>
        simp at hev
        rw [← hev] at hfid
        simp at hfid
        refine ⟨0, q, by omega, ?_, ?_⟩
        · rw [hc]
          rfl
        · rw [hq, hfid]
      | succ m => simp at hev

/-- Witness for C4's amended statement: in the concrete successful image
upload the job enqueued at position 1 carries the inserted id, and indeed
an insert of that row sits at position 0. -/
theorem c4_witness :
    ∃ k d, k < 1
      ∧ (postUpload [wUserId] [] wFs (some wUserId)
          ⟨some "pic", some "image", false, some "aGVsbG8=", none⟩
          "/tmp/files_manager" "uuid-1" wFileId).events.get? k
          = some (Event.insert d)
      ∧ d._id = wFileId :=
  c4_enqueue_after_persist_amended [wUserId] [] wFs (some wUserId)
    ⟨some "pic", some "image", false, some "aGVsbG8=", none⟩
    "/tmp/files_manager" "uuid-1" wFileId 1 ⟨some wFileId, some wUserId⟩ wFileId
    (by decide) (by decide)

/-- C2: creation input validation short-circuits in source order with the
exact messages — missing name; then missing or unknown type; then missing
data for non-folders; then a truthy non-root parent that does not resolve
(including a syntactically invalid one) is "Parent not found" and one
resolving to a non-folder is "Parent is not a folder" — and whenever
validation fails, the authenticated upload responds 400 with exactly that
message while the store, the filesystem and the event trace stay untouched. -/
theorem c2_create_validation_order (users : List String) (store : List FileDoc) (fs : Fs)
    (body : ReqBody) (u FOLDER_PATH fileNameUUID insertedId : String)
    (hvalid : isValidIdStr u = true) (hmem : u ∈ users) :
    (truthy body.name = false → (validateBody store body).1 = some "Missing name")
    ∧ (truthy body.name = true →
        (truthy body.type = false ∨ ¬ ((body.type.getD "") ∈ typesAllowed)) →
        (validateBody store body).1 = some "Missing type")
    ∧ (truthy body.name = true → truthy body.type = true →
        (body.type.getD "") ∈ typesAllowed → truthy body.data = false →
        body.type ≠ some "folder" → (validateBody store body).1 = some "Missing data")
    ∧ (∀ s, truthy body.name = true → truthy body.type = true →
        (body.type.getD "") ∈ typesAllowed →
        (truthy body.data = true ∨ body.type = some "folder") →
        normalizeBodyParent body.parentId = PVal.str s → truthyStr s = true →
        (if isValidIdStr s then findFileById store s else none) = none →
        (validateBody store body).1 = some "Parent not found")
    ∧ (∀ s f, truthy body.name = true → truthy body.type = true →
        (body.type.getD "") ∈ typesAllowed →
        (truthy body.data = true ∨ body.type = some "folder") →
        normalizeBodyParent body.parentId = PVal.str s → truthyStr s = true →
        (if isValidIdStr s then findFileById store s else none) = some f →
        f.type ≠ "folder" →
        (validateBody store body).1 = some "Parent is not a folder")
    ∧ (∀ msg, (validateBody store body).1 = some msg →
        postUpload users store fs (some u) body FOLDER_PATH fileNameUUID insertedId
          = ⟨Response.resp 400 (RespBody.obj (errObj msg)), store, fs, []⟩) := by
  refine ⟨?_, ?_, ?_, ?_, ?_, ?_⟩
  · intro h
    simp [validateBody, h]
  · intro h1 h2
    rcases h2 with h2 | h2 <;> simp [validateBody, h1, h2]
  · intro h1 h2 h3 h4 h5
    simp [validateBody, h1, h2, h3, h4, h5]
  · intro s h1 h2 h3 h4 hpar hts hfind
    rcases h4 with h4 | h4 <;>
      simp [validateBody, h1, h2, h3, h4, hpar, hts, hfind, PVal.truthy] <;> decide
  · intro s f h1 h2 h3 h4 hpar hts hfind hft
    rcases h4 with h4 | h4 <;>
      simp [validateBody, h1, h2, h3, h4, hpar, hts, hfind, hft, PVal.truthy] <;> decide
  · intro msg hmsg
    have h1 : isValidId (some u) = true := hvalid
    have h2 : getUserByOptId users (some u) = some u := by
      simp [getUserByOptId, hmem]
    have htr : truthy (some u) = true := truthyStr_of_isValidIdStr u hvalid
    rcases h3 : validateBody store body with ⟨verr, fp⟩
    rw [h3] at hmsg
    simp only at hmsg
    subst hmsg
    simp [postUpload, h1, h2, h3, htr]

/-- Witness for C2: a concrete nameless creation request is rejected 400
with "Missing name" and persists nothing. -/
theorem c2_witness :
    postUpload [wUserId] [] wFs (some wUserId) ⟨none, some "file", false, some "ZA==", none⟩
        "/tmp/files_manager" "uuid-1" wFileId
      = ⟨Response.resp 400 (RespBody.obj (errObj "Missing name")), [], wFs, []⟩ :=
  (c2_create_validation_order [wUserId] [] wFs ⟨none, some "file", false, some "ZA==", none⟩
      wUserId "/tmp/files_manager" "uuid-1" wFileId (by decide) (by decide)).2.2.2.2.2
      "Missing name" (by decide)

/-- C9: an authenticated fetchOne returns the entry iff the file id is
syntactically valid and a stored entry with that id is owned by the
caller; in every other case — malformed id, nonexistent id, or ownership
mismatch — the response is the identical 404 body, so two failing runs
(for example one where the file does not exist and one where it belongs to
someone else) produce equal responses. -/
theorem c9_fetchone_indistinguishable (users : List String) (store : List FileDoc)
    (u : String) (fileId : String)
    (hvalid : isValidIdStr u = true) (hmem : u ∈ users) :
    (∀ d, findFileByIdUser store fileId u = some d → isValidIdStr fileId = true →
        getShow users store (some u) fileId
          = Response.resp 200 (RespBody.obj (processFile d.toObj)))
    ∧ (¬ (isValidIdStr fileId = true ∧ (findFileByIdUser store fileId u).isSome = true) →
        getShow users store (some u) fileId
          = Response.resp 404 (RespBody.obj (errObj "Not found")))
    ∧ (∀ store2 fileId2,
        ¬ (isValidIdStr fileId = true ∧ (findFileByIdUser store fileId u).isSome = true) →
        ¬ (isValidIdStr fileId2 = true ∧ (findFileByIdUser store2 fileId2 u).isSome = true) →
        getShow users store (some u) fileId = getShow users store2 (some u) fileId2) := by
  have hnf : ∀ (st : List FileDoc) (fid : String),
      ¬ (isValidIdStr fid = true ∧ (findFileByIdUser st fid u).isSome = true) →
      getShow users st (some u) fid = Response.resp 404 (RespBody.obj (errObj "Not found")) := by
    intro st fid hfail
    by_cases hf : isValidIdStr fid = true
    · have hfind : findFileByIdUser st fid u = none := by
        cases hx : findFileByIdUser st fid u with
        | none => rfl
        | some d => exact absurd ⟨hf, by simp [hx]⟩ hfail
      simp [getShow, hvalid, hmem, hf, hfind]
    · simp [getShow, hvalid, hmem, hf]
  refine ⟨?_, hnf store fileId, ?_⟩
  · intro d hfind hf
    simp [getShow, hvalid, hmem, hf, hfind]
  · intro store2 fileId2 hfail hfail2
    rw [hnf store fileId hfail, hnf store2 fileId2 hfail2]

/-- Witness for C9: the concrete owner's fetchOne of its stored entry
returns the 200 projection. -/
theorem c9_witness :
    getShow [wUserId] [wPrivFile] (some wUserId) wFileId
      = Response.resp 200 (RespBody.obj (processFile wPrivFile.toObj)) :=
  (c9_fetchone_indistinguishable [wUserId] [wPrivFile] wUserId wFileId (by decide)
      (by decide)).1 wPrivFile (by decide) (by decide)

/-- C8: for an authenticated list request with a non-root parentId, a
syntactically invalid parentId is rejected as an authorization failure
(401 Unauthorized, not a not-found), while a valid parentId resolving to a
missing entry or to a non-folder entry yields an empty array with 200. -/
theorem c8_list_parent_errors (users : List String) (store : List FileDoc)
    (u : String) (s : String) (page : Nat)
    (hvalid : isValidIdStr u = true) (hmem : u ∈ users)
    (hnonroot : normalizeQueryParent (some s) = PVal.str s) :
    (isValidIdStr s = false →
        getIndex users store (some u) (some s) page
          = Response.resp 401 (RespBody.obj (errObj "Unauthorized")))
    ∧ (isValidIdStr s = true → findFileById store s = none →
        getIndex users store (some u) (some s) page = Response.resp 200 (RespBody.arr []))
    ∧ (∀ f, isValidIdStr s = true → findFileById store s = some f → f.type ≠ "folder" →
        getIndex users store (some u) (some s) page = Response.resp 200 (RespBody.arr [])) := by
  refine ⟨?_, ?_, ?_⟩
  · intro hv
    simp [getIndex, hvalid, hmem, hnonroot, hv]
  · intro hv hf
    simp [getIndex, hvalid, hmem, hnonroot, hv, hf]
  · intro f hv hf hft
    simp [getIndex, hvalid, hmem, hnonroot, hv, hf, hft]

/-- Witness for C8: a malformed parentId on a concrete authenticated listing
yields 401 Unauthorized. -/
theorem c8_witness :
    getIndex [wUserId] [] (some wUserId) (some "zzz") 0
      = Response.resp 401 (RespBody.obj (errObj "Unauthorized")) :=
  (c8_list_parent_errors [wUserId] [] wUserId "zzz" 0 (by decide) (by decide) (by decide)).1
    (by decide)

/-- C6: for an authenticated caller, listing returns exactly the page
window of the stored entries whose parentId matches the resolved parent —
the pipeline matches on parentId only, never on the caller, so every
matching entry is listed regardless of its owner and the result is
identical for any two authenticated callers. -/
theorem c6_list_matches_parent_only (users : List String) (store : List FileDoc)
    (u : String) (parentIdQ : Option String) (page : Nat) (pid : ParentRef)
    (hvalid : isValidIdStr u = true) (hmem : u ∈ users)
    (hres : (normalizeQueryParent parentIdQ = PVal.zero ∧ pid = ParentRef.root)
      ∨ (∃ s, normalizeQueryParent parentIdQ = PVal.str s ∧ pid = ParentRef.oid s
          ∧ isValidIdStr s = true
          ∧ ∃ f, findFileById store s = some f ∧ f.type = "folder")) :
    (getIndex users store (some u) parentIdQ page
      = Response.resp 200 (RespBody.arr
          ((((store.filter (fun d => d.parentId == pid)).drop (page * 20)).take 20).map
            (fun d => processFile d.toObj))))
    ∧ (∀ d, d ∈ ((store.filter (fun d => d.parentId == pid)).drop (page * 20)).take 20 →
        processFile d.toObj
          ∈ (((store.filter (fun d => d.parentId == pid)).drop (page * 20)).take 20).map
              (fun d => processFile d.toObj))
    ∧ (∀ u2, isValidIdStr u2 = true → u2 ∈ users →
        getIndex users store (some u2) parentIdQ page
          = getIndex users store (some u) parentIdQ page) := by
  have hmain : ∀ u2, isValidIdStr u2 = true → u2 ∈ users →
      getIndex users store (some u2) parentIdQ page
        = Response.resp 200 (RespBody.arr
            ((((store.filter (fun d => d.parentId == pid)).drop (page * 20)).take 20).map
              (fun d => processFile d.toObj))) := by
    intro u2 hv2 hm2
    rcases hres with ⟨hn, hpid⟩ | ⟨s, hn, hpid, hsv, f, hf, hft⟩
    · subst hpid
      simp [getIndex, hv2, hm2, hn, listWindow]
    · subst hpid
      simp [getIndex, hv2, hm2, hn, hsv, hf, hft, listWindow]
  refine ⟨hmain u hvalid hmem, ?_, ?_⟩
  · intro d hd
    exact List.mem_map_of_mem _ hd
  · intro u2 hv2 hm2
    rw [hmain u2 hv2 hm2, hmain u hvalid hmem]

/-- Concrete root entry of the witness owner. -/
def wFileA : FileDoc :=
  ⟨wFileId, wUserId, "a.txt", "file", false, ParentRef.root, some "/tmp/files_manager/a"⟩

/-- Concrete root entry of a different owner. -/
def wFileB : FileDoc :=
  ⟨"dddddddddddddddddddddddd", wOtherId, "b.txt", "file", false, ParentRef.root,
   some "/tmp/files_manager/b"⟩

/-- Witness for C6: the concrete caller's root listing is exactly the
parentId window over a store holding entries of two different owners. -/
theorem c6_witness :
    getIndex [wUserId, wOtherId] [wFileA, wFileB] (some wUserId) none 0
      = Response.resp 200 (RespBody.arr
          (((([wFileA, wFileB].filter (fun d => d.parentId == ParentRef.root)).drop
              (0 * 20)).take 20).map (fun d => processFile d.toObj))) :=
  (c6_list_matches_parent_only [wUserId, wOtherId] [wFileA, wFileB] wUserId none 0
      ParentRef.root (by decide) (by decide) (Or.inl (by decide))).1

/-- Key-presence after a property assignment. -/
theorem objHas_setAssoc (o : Obj) (k : String) (v : JVal) (k2 : String) :
    objHas (setAssoc o k v) k2 = (objHas o k2 || (k == k2)) := by
  induction o with
  | nil => simp [setAssoc, objHas]
  | cons p rest ih =>
    by_cases h : (p.1 == k) = true
    · have hp : p.1 = k := by simpa using h
      simp only [setAssoc, h, if_true, objHas, List.any_cons, hp]
      cases hk : (k == k2) <;> simp [hk]
    · simp only [setAssoc, h, if_false, objHas, List.any_cons, Bool.false_eq_true]
      simp only [objHas] at ih
      rw [ih]
      cases hk : (p.1 == k2) <;> simp [hk, Bool.or_assoc]

/-- Key-presence after a spread is the union of both sides. -/
theorem objHas_objSpread (b a : Obj) (k : String) :
    objHas (objSpread a b) k = (objHas a k || objHas b k) := by
  induction b generalizing a with
  | nil => simp [objSpread, objHas]
  | cons p rest ih =>
    have h1 : objSpread a (p :: rest) = objSpread (objSet a p.1 p.2) rest := by
      simp [objSpread]
    rw [h1, ih, objSet, objHas_setAssoc]
    simp only [objHas, List.any_cons]
    cases hk : (p.1 == k) <;> cases hr : (List.any rest fun q => q.1 == k) <;>
      simp [hk, hr, Bool.or_assoc]

/-- Key-presence after a delete: the key itself is gone, others unaffected. -/
theorem objHas_objDelete (o : Obj) (k k2 : String) :
    objHas (objDelete o k) k2 = (objHas o k2 && (k2 != k)) := by
  induction o with
  | nil => simp [objDelete, objHas]
  | cons p rest ih =>
    simp only [objDelete, objHas, List.any_cons] at ih ⊢
    by_cases h1 : p.1 = k
    · by_cases h2 : k2 = k
      · simp [List.filter_cons, h1, h2, ih]
      · have h3 : (k == k2) = false := beq_eq_false_iff_ne.mpr (fun hc => h2 hc.symm)
        simp [List.filter_cons, h1, h2, h3, ih]
    · by_cases h2 : k2 = k
      · have h4 : (p.1 == k2) = false := beq_eq_false_iff_ne.mpr (by rw [h2]; exact h1)
        simp [List.filter_cons, h1, h2, h4, ih]
      · have h5 : (k2 != k) = true := bne_iff_ne.mpr h2
        simp [List.filter_cons, h1, h2, h5, ih]

/-- `processFile` output never carries `localPath` nor `_id`. -/
theorem objClean_processFile (o : Obj) : objClean (processFile o) = true := by
  simp [objClean, processFile, objHas_objDelete]

/-- Prepending the `id` property keeps the projection clean. -/
theorem objClean_spread_id (v : JVal) (o : Obj) :
    objClean (objSpread [("id", v)] (processFile o)) = true := by
  have h := objClean_processFile o
  simp only [objClean, Bool.and_eq_true, Bool.not_eq_true'] at h
  simp only [objClean, objHas_objSpread, Bool.and_eq_true, Bool.not_eq_true']
  constructor
  · have hid : objHas [("id", v)] "localPath" = false := by simp [objHas]
    rw [hid, h.1]
    rfl
  · have hid : objHas [("id", v)] "_id" = false := by simp [objHas]
    rw [hid, h.2]
    rfl

/-- Error bodies are clean. -/
theorem objClean_errObj (msg : String) : objClean (errObj msg) = true := by
  simp [objClean, errObj, objHas]

/-- A successful `saveFile` response body is the id-prefixed projection of
some document. -/
theorem saveFile_ok_newFile (store : List FileDoc) (fs : Fs) (userId : String)
    (p : FileParams) (FP uuid iid : String) (nf : Obj) (store1 : List FileDoc) (fs1 : Fs)
    (evs : List Event)
    (h : saveFile store fs userId p FP uuid iid = (SaveOutcome.ok nf, store1, fs1, evs)) :
    ∃ q : FileDoc, nf = objSpread [("id", JVal.oid iid)] (processFile (FileDoc.toObj q)) := by
  unfold saveFile at h
  by_cases ht : p.type ≠ some "folder"
  · rw [if_pos ht] at h
    cases hm : Fs.mkdirWrite fs (FP ++ "/" ++ uuid) (bufferFromBase64 (p.data.getD "")) with
    | error e2 =>
      simp only [hm] at h
      simp at h
    | ok fsNew =>
      simp only [hm, Prod.mk.injEq, SaveOutcome.ok.injEq] at h
      exact ⟨_, h.1.symm⟩
  · rw [if_neg ht] at h
    simp only [Prod.mk.injEq, SaveOutcome.ok.injEq] at h
    exact ⟨_, h.1.symm⟩

/-- `listWindow` responses are clean. -/
theorem respClean_listWindow (store : List FileDoc) (pid : ParentRef) (page : Nat) :
    respClean (listWindow store pid page) = true := by
  simp only [listWindow, respClean, List.all_eq_true]
  intro o ho
  obtain ⟨d, hd, rfl⟩ := List.mem_map.mp ho
  exact objClean_processFile d.toObj

/-- Every `postUpload` response is clean. -/
theorem postUpload_respClean (users : List String) (store : List FileDoc) (fs : Fs)
    (uid : Option String) (body : ReqBody) (FP uuid iid : String) :
    respClean (postUpload users store fs uid body FP uuid iid).response = true := by
  by_cases h1 : isValidId uid = true
  case neg => simp [postUpload, h1, respClean, objClean_errObj]
  case pos =>
    cases h2 : getUserByOptId users uid with
    | none => simp [postUpload, h1, h2, respClean, objClean_errObj]
    | some u =>
      rcases h3 : validateBody store body with ⟨verr, fp⟩
      cases verr with
      | some msg => simp [postUpload, h1, h2, h3, respClean, objClean_errObj]
      | none =>
        cases hp : fp.parentId with
        | str s =>
          by_cases hv : isValidIdStr s = true
          · rcases h5 : saveFile store fs u fp FP uuid iid with ⟨out, st1, fs1, evs⟩
            cases out with
            | err e c => simp [postUpload, h1, h2, h3, hp, hv, h5, respClean]
            | ok nf =>
              obtain ⟨q, hnf⟩ :=
                saveFile_ok_newFile store fs u fp FP uuid iid nf st1 fs1 evs h5
              by_cases himg : fp.type = some "image" <;>
                simp [postUpload, h1, h2, h3, hp, hv, h5, himg, respClean, hnf,
                  objClean_spread_id]
          · simp [postUpload, h1, h2, h3, hp, hv, respClean, objClean_errObj]
        | zero =>
          rcases h5 : saveFile store fs u fp FP uuid iid with ⟨out, st1, fs1, evs⟩
          cases out with
          | err e c => simp [postUpload, h1, h2, h3, hp, h5, respClean]
          | ok nf =>
            obtain ⟨q, hnf⟩ :=
              saveFile_ok_newFile store fs u fp FP uuid iid nf st1 fs1 evs h5
            by_cases himg : fp.type = some "image" <;>
              simp [postUpload, h1, h2, h3, hp, h5, himg, respClean, hnf,
                objClean_spread_id]

/-- Every `getShow` response is clean. -/
theorem getShow_respClean (users : List String) (store : List FileDoc)
    (uid : Option String) (fileId : String) :
    respClean (getShow users store uid fileId) = true := by
  cases uid with
  | none => simp [getShow, respClean, objClean_errObj]
  | some s =>
    by_cases hv : isValidIdStr s = true
    · by_cases hm : s ∈ users
      · by_cases hf : isValidIdStr fileId = true
        · cases hx : findFileByIdUser store fileId s with
          | none => simp [getShow, hv, hm, hf, hx, respClean, objClean_errObj]
          | some d => simp [getShow, hv, hm, hf, hx, respClean, objClean_processFile]
        · simp [getShow, hv, hm, hf, respClean, objClean_errObj]
      · simp [getShow, hv, hm, respClean, objClean_errObj]
    · simp [getShow, hv, respClean]

/-- Every `getIndex` response is clean. -/
theorem getIndex_respClean (users : List String) (store : List FileDoc)
    (uid : Option String) (parentIdQ : Option String) (page : Nat) :
    respClean (getIndex users store uid parentIdQ page) = true := by
  cases uid with
  | none => simp [getIndex, respClean, objClean_errObj]
  | some s =>
    by_cases hv : isValidIdStr s = true
    · by_cases hm : s ∈ users
      · cases hq : normalizeQueryParent parentIdQ with
        | zero => simp [getIndex, hv, hm, hq, respClean_listWindow]
        | str ps =>
          by_cases hpv : isValidIdStr ps = true
          · cases hx : findFileById store ps with
            | none => simp [getIndex, hv, hm, hq, hpv, hx, respClean]
            | some folder =>
              by_cases hft : folder.type = "folder"
              · simp [getIndex, hv, hm, hq, hpv, hx, hft, respClean_listWindow]
              · simp [getIndex, hv, hm, hq, hpv, hx, hft, respClean]
          · simp [getIndex, hv, hm, hq, hpv, respClean, objClean_errObj]
      · simp [getIndex, hv, hm, respClean, objClean_errObj]
    · simp [getIndex, hv, respClean]

/-- The external projection's key list. -/
def stdKeys : List String := ["id", "userId", "name", "type", "isPublic", "parentId"]

/-- A publish outcome's success body carries exactly the projection keys. -/
def pubKeysOk : PubOutcome → Bool
  | PubOutcome.err _ _ => true
  | PubOutcome.ok _ o => objKeys o == stdKeys

/-- A publish outcome's success body is clean. -/
def pubBodyClean : PubOutcome → Bool
  | PubOutcome.err _ _ => true
  | PubOutcome.ok _ o => objClean o

/-- Every publish/unpublish success body has exactly the projection keys. -/
theorem publishUnpublish_keys (users : List String) (store : List FileDoc)
    (uid : Option String) (fileId : String) (setPublish : Bool) :
    pubKeysOk (publishUnpublish users store uid fileId setPublish).1 = true := by
  by_cases hv : isValidIdStr fileId = true
  · by_cases hu : isValidId uid = true
    · cases hg : getUserByOptId users uid with
      | none => simp [publishUnpublish, hv, hu, hg, pubKeysOk]
      | some u =>
        cases hx : findFileByIdUser store fileId u with
        | none => simp [publishUnpublish, hv, hu, hg, hx, pubKeysOk]
        | some f => simp [publishUnpublish, hv, hu, hg, hx, pubKeysOk, objKeys, stdKeys]
    · simp [publishUnpublish, hv, hu, pubKeysOk]
  · simp [publishUnpublish, hv, pubKeysOk]

/-- Every publish/unpublish success body is clean. -/
theorem publishUnpublish_clean (users : List String) (store : List FileDoc)
    (uid : Option String) (fileId : String) (setPublish : Bool) :
    pubBodyClean (publishUnpublish users store uid fileId setPublish).1 = true := by
  by_cases hv : isValidIdStr fileId = true
  · by_cases hu : isValidId uid = true
    · cases hg : getUserByOptId users uid with
      | none => simp [publishUnpublish, hv, hu, hg, pubBodyClean]
      | some u =>
        cases hx : findFileByIdUser store fileId u with
        | none => simp [publishUnpublish, hv, hu, hg, hx, pubBodyClean]
        | some f =>
          simp [publishUnpublish, hv, hu, hg, hx, pubBodyClean, objClean, objHas]
    · simp [publishUnpublish, hv, hu, pubBodyClean]
  · simp [publishUnpublish, hv, pubBodyClean]

/-- Every `putPublish` response is clean. -/
theorem putPublish_respClean (users : List String) (store : List FileDoc)
    (uid : Option String) (fileId : String) :
    respClean (putPublish users store uid fileId).1 = true := by
  have hc := publishUnpublish_clean users store uid fileId true
  rcases hx : publishUnpublish users store uid fileId true with ⟨out, st1⟩
  rw [hx] at hc
  cases out with
  | err e c => simp [putPublish, hx, respClean, objClean_errObj]
  | ok c f =>
    simp only [pubBodyClean] at hc
    simp [putPublish, hx, respClean, hc]

/-- Every `putUnpublish` response is clean. -/
theorem putUnpublish_respClean (users : List String) (store : List FileDoc)
    (uid : Option String) (fileId : String) :
    respClean (putUnpublish users store uid fileId).1 = true := by
  have hc := publishUnpublish_clean users store uid fileId false
  rcases hx : publishUnpublish users store uid fileId false with ⟨out, st1⟩
  rw [hx] at hc
  cases out with
  | err e c => simp [putUnpublish, hx, respClean, objClean_errObj]
  | ok c f =>
    simp only [pubBodyClean] at hc
    simp [putUnpublish, hx, respClean, hc]

/-- `processFile` of a stored document yields exactly the projection keys. -/
theorem processFile_toObj_keys (d : FileDoc) :
    objKeys (processFile (FileDoc.toObj d)) = stdKeys := by
  cases h : d.localPath <;>
    simp [processFile, FileDoc.toObj, h, objSpread, objSet, setAssoc, objDelete, objGet,
      lookupAssoc, objKeys, stdKeys, bne]

/-- The id-prefixed spread of a processed document keeps exactly the
projection keys. -/
theorem spread_id_processFile_keys (d : FileDoc) (v : JVal) :
    objKeys (objSpread [("id", v)] (processFile (FileDoc.toObj d))) = stdKeys := by
  cases h : d.localPath <;>
    simp [processFile, FileDoc.toObj, h, objSpread, objSet, setAssoc, objDelete, objGet,
      lookupAssoc, objKeys, stdKeys, bne]

/-- C5: the successful responses of create, fetchOne, listByParent and the
visibility toggles expose entries only through the projection
`id, userId, name, type, isPublic, parentId` — no response object of these
operations ever carries a `localPath` or a raw `_id` key, and the entry
bodies carry exactly the projection keys. -/
theorem c5_projection_excludes_internal_fields :
    (∀ users store fs uid body FP uuid iid,
        respClean (postUpload users store fs uid body FP uuid iid).response = true)
    ∧ (∀ users store uid fileId, respClean (getShow users store uid fileId) = true)
    ∧ (∀ users store uid parentIdQ page,
        respClean (getIndex users store uid parentIdQ page) = true)
    ∧ (∀ users store uid fileId,
        respClean (putPublish users store uid fileId).1 = true
          ∧ respClean (putUnpublish users store uid fileId).1 = true)
    ∧ (∀ users store uid fileId setPublish,
        pubKeysOk (publishUnpublish users store uid fileId setPublish).1 = true)
    ∧ (∀ d : FileDoc, objKeys (processFile (FileDoc.toObj d)) = stdKeys)
    ∧ (∀ (d : FileDoc) (v : JVal),
        objKeys (objSpread [("id", v)] (processFile (FileDoc.toObj d))) = stdKeys) :=
  ⟨postUpload_respClean, getShow_respClean, getIndex_respClean,
   fun users store uid fileId =>
     ⟨putPublish_respClean users store uid fileId,
      putUnpublish_respClean users store uid fileId⟩,
   publishUnpublish_keys, processFile_toObj_keys, spread_id_processFile_keys⟩

/-- Unrolling of the three-width fan-out: the collected error list is empty
iff all three generations succeed in sequence, and a nonempty error list
starts with the error of the first failing width. -/
theorem runThumbnails_spec (thumb : String → Nat → Except String (List Nat)) (fs : Fs)
    (p : String) :
    ((runThumbnails thumb fs p).2 = [] ↔
      ∃ fs1 fs2 fs3, generateThumbnail thumb fs p 500 = Except.ok fs1
        ∧ generateThumbnail thumb fs1 p 250 = Except.ok fs2
        ∧ generateThumbnail thumb fs2 p 100 = Except.ok fs3)
    ∧ (∀ e rest, (runThumbnails thumb fs p).2 = e :: rest →
        (generateThumbnail thumb fs p 500 = Except.error e
         ∨ (∃ fs1, generateThumbnail thumb fs p 500 = Except.ok fs1
             ∧ generateThumbnail thumb fs1 p 250 = Except.error e)
         ∨ (∃ fs1 fs2, generateThumbnail thumb fs p 500 = Except.ok fs1
             ∧ generateThumbnail thumb fs1 p 250 = Except.ok fs2
             ∧ generateThumbnail thumb fs2 p 100 = Except.error e))) := by
  cases hg1 : generateThumbnail thumb fs p 500 with
  | ok fs1 =>
    cases hg2 : generateThumbnail thumb fs1 p 250 with
    | ok fs2 =>
      cases hg3 : generateThumbnail thumb fs2 p 100 with
      | ok fs3 =>
        have hrun : runThumbnails thumb fs p = (fs3, []) := by
          simp [runThumbnails, thumbnailSizes, hg1, hg2, hg3]
        refine ⟨⟨fun _ => ⟨fs1, fs2, fs3, rfl, hg2, hg3⟩, fun _ => by rw [hrun]⟩, ?_⟩
        intro e rest hcontra
        rw [hrun] at hcontra
        simp at hcontra
      | error e3 =>
        have hrun : runThumbnails thumb fs p = (fs2, [e3]) := by
          simp [runThumbnails, thumbnailSizes, hg1, hg2, hg3]
        refine ⟨⟨?_, ?_⟩, ?_⟩
        · intro hC
          rw [hrun] at hC
          simp at hC
        · rintro ⟨fs1x, fs2x, fs3x, h1x, h2x, h3x⟩
          injection h1x with h1x
          subst h1x
          rw [hg2] at h2x
          injection h2x with h2x
          subst h2x
          rw [hg3] at h3x
          exact Except.noConfusion h3x
        · intro e rest hrun2
          rw [hrun] at hrun2
          obtain ⟨he, hr⟩ : e3 = e ∧ [] = rest := by simpa using hrun2
          subst he
          right; right
          exact ⟨fs1, fs2, rfl, hg2, hg3⟩
    | error e2 =>
      cases hg3 : generateThumbnail thumb fs1 p 100 with
      | ok fs3 =>
        have hrun : runThumbnails thumb fs p = (fs3, [e2]) := by
          simp [runThumbnails, thumbnailSizes, hg1, hg2, hg3]
        refine ⟨⟨?_, ?_⟩, ?_⟩
        · intro hC
          rw [hrun] at hC
          simp at hC
        · rintro ⟨fs1x, fs2x, fs3x, h1x, h2x, h3x⟩
          injection h1x with h1x
          subst h1x
          rw [hg2] at h2x
          exact Except.noConfusion h2x
        · intro e rest hrun2
          rw [hrun] at hrun2
          obtain ⟨he, hr⟩ : e2 = e ∧ [] = rest := by simpa using hrun2
          subst he
          right; left
          exact ⟨fs1, rfl, hg2⟩
      | error e3 =>
        have hrun : runThumbnails thumb fs p = (fs1, [e2, e3]) := by
          simp [runThumbnails, thumbnailSizes, hg1, hg2, hg3]
        refine ⟨⟨?_, ?_⟩, ?_⟩
        · intro hC
          rw [hrun] at hC
          simp at hC
        · rintro ⟨fs1x, fs2x, fs3x, h1x, h2x, h3x⟩
          injection h1x with h1x
          subst h1x
          rw [hg2] at h2x
          exact Except.noConfusion h2x
        · intro e rest hrun2
          rw [hrun] at hrun2
          obtain ⟨he, hr⟩ : e2 = e ∧ [e3] = rest := by simpa using hrun2
          subst he
          right; left
          exact ⟨fs1, rfl, hg2⟩
  | error e1 =>
    cases hg2 : generateThumbnail thumb fs p 250 with
    | ok fs1 =>
      cases hg3 : generateThumbnail thumb fs1 p 100 with
      | ok fs3 =>
        have hrun : runThumbnails thumb fs p = (fs3, [e1]) := by
          simp [runThumbnails, thumbnailSizes, hg1, hg2, hg3]
        refine ⟨⟨?_, ?_⟩, ?_⟩
        · intro hC
          rw [hrun] at hC
          simp at hC
        · rintro ⟨fs1x, fs2x, fs3x, h1x, h2x, h3x⟩
          exact Except.noConfusion h1x
        · intro e rest hrun2
          rw [hrun] at hrun2
          obtain ⟨he, hr⟩ : e1 = e ∧ [] = rest := by simpa using hrun2
          subst he
          left
          rfl
      | error e3 =>
        have hrun : runThumbnails thumb fs p = (fs1, [e1, e3]) := by
          simp [runThumbnails, thumbnailSizes, hg1, hg2, hg3]
        refine ⟨⟨?_, ?_⟩, ?_⟩
        · intro hC
          rw [hrun] at hC
          simp at hC
        · rintro ⟨fs1x, fs2x, fs3x, h1x, h2x, h3x⟩
          exact Except.noConfusion h1x
        · intro e rest hrun2
          rw [hrun] at hrun2
          obtain ⟨he, hr⟩ : e1 = e ∧ [e3] = rest := by simpa using hrun2
          subst he
          left
          rfl
    | error e2 =>
      cases hg3 : generateThumbnail thumb fs p 100 with
      | ok fs3 =>
        have hrun : runThumbnails thumb fs p = (fs3, [e1, e2]) := by
          simp [runThumbnails, thumbnailSizes, hg1, hg2, hg3]
        refine ⟨⟨?_, ?_⟩, ?_⟩
        · intro hC
          rw [hrun] at hC
          simp at hC
        · rintro ⟨fs1x, fs2x, fs3x, h1x, h2x, h3x⟩
          exact Except.noConfusion h1x
        · intro e rest hrun2
          rw [hrun] at hrun2
          obtain ⟨he, hr⟩ : e1 = e ∧ [e2] = rest := by simpa using hrun2
          subst he
          left
          rfl
      | error e3 =>
        have hrun : runThumbnails thumb fs p = (fs, [e1, e2, e3]) := by
          simp [runThumbnails, thumbnailSizes, hg1, hg2, hg3]
        refine ⟨⟨?_, ?_⟩, ?_⟩
        · intro hC
          rw [hrun] at hC
          simp at hC
        · rintro ⟨fs1x, fs2x, fs3x, h1x, h2x, h3x⟩
          exact Except.noConfusion h1x
        · intro e rest hrun2
          rw [hrun] at hrun2
          obtain ⟨he, hr⟩ : e1 = e ∧ [e2, e3] = rest := by simpa using hrun2
          subst he
          left
          rfl

/-- C7: a thumbnail job missing its fileId or userId fails with the
corresponding message without touching the disk, as does a job whose ids
are malformed or do not resolve to a stored file; a job resolving to a
file generates derivatives for exactly the widths 500, 250 and 100, each
written to `localPath_<width>` — when all three succeed the job completes
and the disk gains exactly those three paths, the job completes only if
all three generations succeed, and any failure fails the job with the
underlying error of the first failing width (sibling writes still land). -/
theorem c7_thumbnail_job (store : List FileDoc)
    (thumb : String → Nat → Except String (List Nat)) (fs : Fs) (job : JobData) :
    (jsOrNull job.fileId = none →
        processFileQueueJob store thumb fs job = (JobResult.failed "Missing fileId", fs))
    ∧ (∀ fid, jsOrNull job.fileId = some fid → jsOrNull job.userId = none →
        processFileQueueJob store thumb fs job = (JobResult.failed "Missing userId", fs))
    ∧ (∀ fid uidStr, jsOrNull job.fileId = some fid → jsOrNull job.userId = some uidStr →
        (isValidIdStr uidStr = false ∨ (isValidIdStr uidStr = true ∧ isValidIdStr fid = false)) →
        processFileQueueJob store thumb fs job = (JobResult.failed objectIdErrMsg, fs))
    ∧ (∀ fid uidStr, jsOrNull job.fileId = some fid → jsOrNull job.userId = some uidStr →
        isValidIdStr uidStr = true → isValidIdStr fid = true →
        findFileByIdUser store fid uidStr = none →
        processFileQueueJob store thumb fs job = (JobResult.failed "File not found", fs))
    ∧ (∀ fid uidStr file, jsOrNull job.fileId = some fid → jsOrNull job.userId = some uidStr →
        isValidIdStr uidStr = true → isValidIdStr fid = true →
        findFileByIdUser store fid uidStr = some file →
        ((∀ b500 b250 b100,
          thumb (jsPathStr file.localPath) 500 = Except.ok b500 →
          thumb (jsPathStr file.localPath) 250 = Except.ok b250 →
          thumb (jsPathStr file.localPath) 100 = Except.ok b100 →
          lookupAssoc fs.writeErrs (jsPathStr file.localPath ++ "_" ++ toString 500) = none →
          lookupAssoc fs.writeErrs (jsPathStr file.localPath ++ "_" ++ toString 250) = none →
          lookupAssoc fs.writeErrs (jsPathStr file.localPath ++ "_" ++ toString 100) = none →
          processFileQueueJob store thumb fs job
            = (JobResult.done,
               { fs with contents :=
                   (setAssoc (setAssoc (setAssoc fs.contents
                     (jsPathStr file.localPath ++ "_" ++ toString 500) b500)
                     (jsPathStr file.localPath ++ "_" ++ toString 250) b250)
                     (jsPathStr file.localPath ++ "_" ++ toString 100) b100) }))
        ∧ ((processFileQueueJob store thumb fs job).1 = JobResult.done ↔
            (∃ fs1 fs2 fs3,
              generateThumbnail thumb fs (jsPathStr file.localPath) 500 = Except.ok fs1
              ∧ generateThumbnail thumb fs1 (jsPathStr file.localPath) 250 = Except.ok fs2
              ∧ generateThumbnail thumb fs2 (jsPathStr file.localPath) 100 = Except.ok fs3))
        ∧ (∀ e, (processFileQueueJob store thumb fs job).1 = JobResult.failed e →
            (generateThumbnail thumb fs (jsPathStr file.localPath) 500 = Except.error e
             ∨ (∃ fs1,
                 generateThumbnail thumb fs (jsPathStr file.localPath) 500 = Except.ok fs1
                 ∧ generateThumbnail thumb fs1 (jsPathStr file.localPath) 250
                     = Except.error e)
             ∨ (∃ fs1 fs2,
                 generateThumbnail thumb fs (jsPathStr file.localPath) 500 = Except.ok fs1
                 ∧ generateThumbnail thumb fs1 (jsPathStr file.localPath) 250 = Except.ok fs2
                 ∧ generateThumbnail thumb fs2 (jsPathStr file.localPath) 100
                     = Except.error e))))) := by
  refine ⟨?_, ?_, ?_, ?_, ?_⟩
  · intro h1
    simp [processFileQueueJob, h1]
  · intro fid h1 h2
    simp [processFileQueueJob, h1, h2]
  · intro fid uidStr h1 h2 h3
    rcases h3 with h3 | ⟨h3, h4⟩
    · simp [processFileQueueJob, h1, h2, h3]
    · simp [processFileQueueJob, h1, h2, h3, h4]
  · intro fid uidStr h1 h2 h3 h4 h5
    simp [processFileQueueJob, h1, h2, h3, h4, h5]
  · intro fid uidStr file h1 h2 h3 h4 h5
    refine ⟨?_, ?_, ?_⟩
    · intro b500 b250 b100 hb1 hb2 hb3 hw1 hw2 hw3
      simp [processFileQueueJob, h1, h2, h3, h4, h5, runThumbnails, thumbnailSizes,
        generateThumbnail, Fs.writeFile, hb1, hb2, hb3, hw1, hw2, hw3]
    · have hspec := (runThumbnails_spec thumb fs (jsPathStr file.localPath)).1
      rcases hr : runThumbnails thumb fs (jsPathStr file.localPath) with ⟨fsr, errs⟩
      rw [hr] at hspec
      cases errs with
      | nil =>
        constructor
        · intro _
          exact hspec.mp rfl
        · intro _
          simp [processFileQueueJob, h1, h2, h3, h4, h5, hr]
      | cons e0 rest =>
        constructor
        · intro hC
          simp [processFileQueueJob, h1, h2, h3, h4, h5, hr] at hC
        · intro hx
          have : (e0 :: rest : List String) = [] := hspec.mpr hx
          simp at this
    · intro e hfail
      have hspec := (runThumbnails_spec thumb fs (jsPathStr file.localPath)).2
      rcases hr : runThumbnails thumb fs (jsPathStr file.localPath) with ⟨fsr, errs⟩
      rw [hr] at hspec
      cases errs with
      | nil =>
        simp [processFileQueueJob, h1, h2, h3, h4, h5, hr] at hfail
      | cons e0 rest =>
        have he : e0 = e := by
          simpa [processFileQueueJob, h1, h2, h3, h4, h5, hr] using hfail
        subst he
        exact hspec e0 rest rfl

/-- Thumbnailer oracle of the C7 witness: always yields the byte `1`. -/
def wThumb : String → Nat → Except String (List Nat) := fun _ _ => Except.ok [1]

/-- Witness for C7: the concrete resolvable job completes and writes
exactly the three suffixed derivative paths. -/
theorem c7_witness :
    processFileQueueJob [wPrivFile] wThumb wFs ⟨some wFileId, some wUserId⟩
      = (JobResult.done,
         { wFs with contents :=
             (setAssoc (setAssoc (setAssoc wFs.contents
               (jsPathStr wPrivFile.localPath ++ "_" ++ toString 500) [1])
               (jsPathStr wPrivFile.localPath ++ "_" ++ toString 250) [1])
               (jsPathStr wPrivFile.localPath ++ "_" ++ toString 100) [1]) }) :=
  (((c7_thumbnail_job [wPrivFile] wThumb wFs ⟨some wFileId, some wUserId⟩).2.2.2.2
      wFileId wUserId wPrivFile (by decide) (by decide) (by decide) (by decide)
      (by decide)).1) [1] [1] [1] rfl rfl rfl rfl rfl rfl

/-- C10: a valid non-folder creation followed by the owner's content fetch
of the new entry round-trips — the fetch returns exactly the bytes obtained
by base64-decoding the submitted payload. -/
theorem c10_create_fetch_roundtrip (store : List FileDoc) (fs : Fs) (u : String)
    (p : FileParams) (FOLDER_PATH fileNameUUID insertedId d : String)
    (htype : p.type = some "file" ∨ p.type = some "image")
    (hdata : p.data = some d)
    (hmk : fs.mkdirErr = none)
    (hw : lookupAssoc fs.writeErrs (FOLDER_PATH ++ "/" ++ fileNameUUID) = none)
    (hiid : isValidIdStr insertedId = true)
    (hfresh : ∀ doc ∈ store, doc._id ≠ insertedId)
    (hu : isValidIdStr u = true) :
    ∃ nf store1 fs1 evs,
      saveFile store fs u p FOLDER_PATH fileNameUUID insertedId
        = (SaveOutcome.ok nf, store1, fs1, evs)
      ∧ getFileContent store1 fs1 (some u) insertedId none
          = Response.resp 200 (RespBody.bytes (bufferFromBase64 d)) := by
  have hbd : p.data.getD "" = d := by
    rw [hdata]
    rfl
  have hnotf : p.type ≠ some "folder" := by
    rcases htype with h | h <;> rw [h] <;> simp
  have hwrite : fs.mkdirWrite (FOLDER_PATH ++ "/" ++ fileNameUUID)
      (bufferFromBase64 (p.data.getD ""))
      = Except.ok { fs with contents := (setAssoc fs.contents
          (FOLDER_PATH ++ "/" ++ fileNameUUID) (bufferFromBase64 (p.data.getD ""))) } := by
    simp [Fs.mkdirWrite, Fs.writeFile, hmk, hw]
  have htq : (savedDoc u p (some (FOLDER_PATH ++ "/" ++ fileNameUUID)) insertedId).type
      ≠ "folder" := by
    rcases htype with h | h <;> simp [savedDoc, h]
  have hfind : findFileById
      (store ++ [savedDoc u p (some (FOLDER_PATH ++ "/" ++ fileNameUUID)) insertedId])
      insertedId
      = some (savedDoc u p (some (FOLDER_PATH ++ "/" ++ fileNameUUID)) insertedId) :=
    findFileById_append_fresh store
      (savedDoc u p (some (FOLDER_PATH ++ "/" ++ fileNameUUID)) insertedId) hfresh
  have hacc : isOwnerAndPublic
      (savedDoc u p (some (FOLDER_PATH ++ "/" ++ fileNameUUID)) insertedId) (some u)
      = true :=
    (isOwnerAndPublic_iff _ (some u) hu).mpr (Or.inr rfl)
  have hdata2 : getFileData
      { fs with contents := (setAssoc fs.contents (FOLDER_PATH ++ "/" ++ fileNameUUID)
          (bufferFromBase64 (p.data.getD ""))) }
      (savedDoc u p (some (FOLDER_PATH ++ "/" ++ fileNameUUID)) insertedId) none
      = Except.ok (bufferFromBase64 (p.data.getD "")) := by
    simp [getFileData, savedDoc, truthy, Fs.read, lookupAssoc_setAssoc_self]
  refine ⟨objSpread [("id", JVal.oid insertedId)]
      (processFile (FileDoc.toObj
        (savedDoc u p (some (FOLDER_PATH ++ "/" ++ fileNameUUID)) insertedId))),
    store ++ [savedDoc u p (some (FOLDER_PATH ++ "/" ++ fileNameUUID)) insertedId],
    { fs with contents := (setAssoc fs.contents (FOLDER_PATH ++ "/" ++ fileNameUUID)
        (bufferFromBase64 (p.data.getD ""))) },
    [Event.insert (savedDoc u p (some (FOLDER_PATH ++ "/" ++ fileNameUUID)) insertedId)],
    ?_, ?_⟩
  · unfold saveFile
    rw [if_pos hnotf]
    simp only [hwrite]
  · rw [← hbd]
    simp [getFileContent, hiid, hfind, hacc, htq, hdata2]

/-- Witness for C10: the concrete owner creation of "aGVsbG8=" and the
subsequent owner fetch returning the decoded bytes of "hello". -/
theorem c10_witness :
    ∃ nf store1 fs1 evs,
      saveFile [] wFs wUserId ⟨some "hello.txt", some "file", PVal.zero, false, some "aGVsbG8="⟩
          "/tmp/files_manager" "uuid-1" wFileId
        = (SaveOutcome.ok nf, store1, fs1, evs)
      ∧ getFileContent store1 fs1 (some wUserId) wFileId none
          = Response.resp 200 (RespBody.bytes (bufferFromBase64 "aGVsbG8=")) :=
  c10_create_fetch_roundtrip [] wFs wUserId
    ⟨some "hello.txt", some "file", PVal.zero, false, some "aGVsbG8="⟩
    "/tmp/files_manager" "uuid-1" wFileId "aGVsbG8="
    (Or.inl rfl) rfl rfl rfl (by decide) (by decide) (by decide)
